import Mathlib

/-!
Verification of the hybrid recommendation system's core pipeline:
a shallow embedding of `src/service.py`, `src/models/popularity.py`,
`src/models/collaborative_filtering.py`, `src/models/reranking.py` and
`src/models/base.py`, together with theorems settling the stated claims
about candidate-pool assembly, cold-start blending, reranking and the
service orchestration.

Item IDs and user IDs are embedded as `Int` (Python ints); NumPy arrays
and Python lists become `List Int`; dictionaries become functions into
`Option`; a caught Python exception becomes an `Option`/`none` result.
-/

/-- Python floor division on integers (the `//` operator). -/
def pydiv (a b : Int) : Int := Int.fdiv a b

/-- Python sequence indexing `l[i]`, including negative wrap-around;
`none` models an `IndexError`. -/
def pyIndex {α : Type} (l : List α) (i : Int) : Option α :=
  if 0 ≤ i then l.get? i.toNat
  else if 0 ≤ (l.length : Int) + i then l.get? ((l.length : Int) + i).toNat
  else none

/-- Python slice `l[:k]` from the start, including the negative-`k` form. -/
def pyslice {α : Type} (k : Int) (l : List α) : List α :=
  if 0 ≤ k then l.take k.toNat else l.take ((l.length : Int) + k).toNat

/-! ## Cold-start handler: `ContextualPopularity` (`src/models/popularity.py`) -/

/-- The loop body of `ContextualPopularity._extend_from_table`: walk `items`,
append each item not already selected, and stop once `added` reaches `n` or
the selection reaches the hard safety limit of 100 entries.  The Python
`seen` set mirrors the `recommendations` list exactly (both start empty and
are only ever updated together), so one list carries both. -/
def extendLoop : List Int → Int → Nat → List Int → List Int × Nat
  | [], _, added, recs => (recs, added)
  | item :: rest, n, added, recs =>
    if item ∈ recs then extendLoop rest n added recs
    else
      let recs' := recs ++ [item]
      let added' := added + 1
      if (added' : Int) = n ∨ 100 ≤ recs'.length then (recs', added')
      else extendLoop rest n added' recs'

/-- Embeds `ContextualPopularity._extend_from_table`: no-op on a missing table or a
non-positive quota, otherwise run the selection loop. -/
def extend_from_table (items : Option (List Int)) (n : Int) (recs : List Int) :
    List Int × Nat :=
  match items with
  | none => (recs, 0)
  | some its => if n ≤ 0 then (recs, 0) else extendLoop its n 0 recs

/-- Embeds `ContextualPopularity._extend_from_context`: look the key up in the named
segment table (absent table contributes nothing) and extend from the result.
The key type is generic so the same definition covers the plain `by_os` /
`by_dev` tables (`Int` keys) and the regional tables (pair keys), whose
lookups `get_recommendations` inlines with identical structure. -/
def extend_from_context {κ : Type} (table : Option (κ → Option (List Int))) (key : κ)
    (n : Int) (recs : List Int) : List Int × Nat :=
  match table with
  | none => (recs, 0)
  | some t => extend_from_table (t key) n recs

/-- The quota record returned by `ContextualPopularity._calculate_allocation`. -/
structure Allocation where
  os_global : Int
  device_global : Int
  os_regional : Int
  device_regional : Int
deriving DecidableEq, Repr

/-- Embeds `ContextualPopularity._calculate_allocation`: per-dimension quotas for a
request of size `k`. -/
def calculate_allocation (k : Int) : Allocation :=
  { os_global := max 1 (pydiv (k * 2) 10)
    device_global := max 1 (pydiv (k * 2) 10)
    os_regional := max 1 (pydiv (k * 3) 10)
    device_regional := k - max 1 (pydiv (k * 2) 10) * 2 - max 1 (pydiv (k * 3) 10) }

/-- State of a loaded `ContextualPopularity` cold-start handler: the four
optional segment tables from `top_lists.pkl` and the global fallback list. -/
structure ContextualPopularity where
  loaded : Bool
  by_os : Option (Int → Option (List Int))
  by_dev : Option (Int → Option (List Int))
  by_os_reg : Option (Int × String → Option (List Int))
  by_dev_reg : Option (Int × String → Option (List Int))
  global_fallback : Option (List Int)

/-- The request context consumed by the cold-start handler; missing keys
default to `-1` / `-1` / the empty string as in `context.get`. -/
structure Context where
  device : Option Int
  os : Option Int
  country : Option String

/-- Embeds `ContextualPopularity.get_recommendations`: blend the four context
segments under their quotas, backfill from the global list, and truncate to
`k`.  `none` models the `RuntimeError` raised when the handler is unloaded. -/
def ContextualPopularity.get_recommendations (cp : ContextualPopularity)
    (context : Context) (k : Int) : Option (List Int) :=
  if cp.loaded then
    let device := context.device.getD (-1)
    let os := context.os.getD (-1)
    let country := (context.country.getD "").toUpper
    let a := calculate_allocation k
    let recs := (extend_from_context cp.by_os os a.os_global []).1
    let recs := (extend_from_context cp.by_dev device a.device_global recs).1
    let recs :=
      match cp.by_os_reg with
      | none => recs
      | some t => (extend_from_table (t (os, country)) a.os_regional recs).1
    let recs :=
      match cp.by_dev_reg with
      | none => recs
      | some t => (extend_from_table (t (device, country)) a.device_regional recs).1
    let recs :=
      match cp.global_fallback with
      | none => recs
      | some g =>
        if (recs.length : Int) < k then
          (extend_from_table (some g) (k - (recs.length : Int)) recs).1
        else recs
    some (pyslice k recs)
  else none

/-- C6: for every request size k >= 1, the four cold-start quotas sum to
exactly k under integer truncation, and k = 10 yields quotas 2,2,3,3 while
k = 7 yields 1,1,2,3. -/
theorem c6_allocation_sums_to_k (k : Int) (hk : 1 ≤ k) :
    (calculate_allocation k).os_global + (calculate_allocation k).device_global +
        (calculate_allocation k).os_regional + (calculate_allocation k).device_regional = k ∧
      calculate_allocation 10 = ⟨2, 2, 3, 3⟩ ∧ calculate_allocation 7 = ⟨1, 1, 2, 3⟩ := by
  refine ⟨?_, by decide, by decide⟩
  simp only [calculate_allocation]
  ring

theorem c6_allocation_witness :
    (1 : Int) ≤ 10 ∧
      ((calculate_allocation 10).os_global + (calculate_allocation 10).device_global +
          (calculate_allocation 10).os_regional + (calculate_allocation 10).device_regional = 10 ∧
        calculate_allocation 10 = ⟨2, 2, 3, 3⟩ ∧ calculate_allocation 7 = ⟨1, 1, 2, 3⟩) :=
  ⟨by decide, c6_allocation_sums_to_k 10 (by decide)⟩

/-! ## Candidate generators (`src/models/collaborative_filtering.py`,
`src/models/popularity.py`) -/

/-- The scan shared by every `generate_candidates` implementation: walk the
precomputed row, append items absent from the caller's `seen` set, and stop
once `k` candidates are collected (checked after every element, appended or
not).  `seen` is the caller's exclusion set and is not extended here. -/
def scanCandidates : List Int → List Int → Int → List Int → List Int
  | [], _, _, acc => acc
  | item :: rest, seen, k, acc =>
    let acc' := if item ∈ seen then acc else acc ++ [item]
    if k ≤ (acc'.length : Int) then acc' else scanCandidates rest seen k acc'

/-- State of the item-to-item CF model: similarity rows indexed by item ID
and the per-user last-click array. -/
structure ItemToItemCF where
  loaded : Bool
  similarity_matrix : List (List Int)
  last_clicks : List Int

/-- Embeds `ItemToItemCF.generate_candidates`: seed from the user's last click; the
sentinel -1 and any `IndexError` yield the empty contribution. -/
def ItemToItemCF.generate_candidates (m : ItemToItemCF) (user_id : Int)
    (seen : List Int) (k : Int) : List Int :=
  if m.loaded then
    match pyIndex m.last_clicks user_id with
    | none => []
    | some last_item =>
      if last_item = -1 then []
      else
        match pyIndex m.similarity_matrix last_item with
        | none => []
        | some row => scanCandidates row seen k []
  else []

/-- State of the ALS model: precomputed per-user recommendation rows. -/
structure ALSRecommender where
  loaded : Bool
  user_recommendations : List (List Int)

/-- Embeds `ALSRecommender.generate_candidates`: per-user row lookup with the shared
exclusion/limit scan; an `IndexError` yields the empty contribution. -/
def ALSRecommender.generate_candidates (m : ALSRecommender) (user_id : Int)
    (seen : List Int) (k : Int) : List Int :=
  if m.loaded then
    match pyIndex m.user_recommendations user_id with
    | none => []
    | some row => scanCandidates row seen k []
  else []

/-- State of the two-tower model: precomputed per-user recommendation rows. -/
structure TwoTowerRecommender where
  loaded : Bool
  user_recommendations : List (List Int)

/-- Embeds `TwoTowerRecommender.generate_candidates`: same shape as ALS. -/
def TwoTowerRecommender.generate_candidates (m : TwoTowerRecommender)
    (user_id : Int) (seen : List Int) (k : Int) : List Int :=
  if m.loaded then
    match pyIndex m.user_recommendations user_id with
    | none => []
    | some row => scanCandidates row seen k []
  else []

/-- State of the global popularity model: one global ordered item list. -/
structure PopularityRecommender where
  loaded : Bool
  popularity_list : List Int

/-- Embeds `PopularityRecommender.generate_candidates`: scan the global list. -/
def PopularityRecommender.generate_candidates (m : PopularityRecommender)
    (user_id : Int) (seen : List Int) (k : Int) : List Int :=
  if m.loaded then scanCandidates m.popularity_list seen k [] else []

/-- Embeds `PopularityRecommender.get_candidates`: the public entry used by the
service's cold fallback; raises (`none`) when the model is unloaded. -/
def PopularityRecommender.get_candidates (m : PopularityRecommender)
    (user_id : Int) (k : Int) : Option (List Int) :=
  if m.loaded then some (m.generate_candidates user_id [] k) else none

/-! ## Candidate pool builder (`RecommendationService._generate_candidate_pool`) -/

/-- Algorithm names recognized by `_generate_candidate_pool` after the
class-name mapping. -/
inductive AlgoName
  | cf
  | als
  | pop
  | tt
deriving DecidableEq

/-- The per-call caps `algorithm_limits` from `ModelConfig`. -/
def algorithm_limit : AlgoName → Int
  | .cf => 300
  | .als => 100
  | .pop => 600
  | .tt => 200

/-- The cumulative caps `pool_limits` used while building the pool. -/
def pool_limit : AlgoName → Nat
  | .cf => 300
  | .als => 400
  | .pop => 600
  | .tt => 800

/-- A registered candidate generator as seen by the pool builder: the mapped
algorithm name (`none` when the class name is unrecognized, which skips the
stage) and its `generate_candidates` output (`none` models an exception,
which also skips the stage). -/
structure RegGenerator where
  algo : Option AlgoName
  gen : Int → List Int → Int → Option (List Int)

/-- One stage of the pool loop: append items not already in the pool, and
break once the stage's cumulative cap is reached (checked after every item,
appended or not).  The builder's `seen` set mirrors `candidates` exactly, so
one list carries both. -/
def stageLoop : List Int → Nat → List Int → List Int
  | [], _, pool => pool
  | item :: rest, cap, pool =>
    let pool' := if item ∈ pool then pool else pool ++ [item]
    if cap ≤ pool'.length then pool' else stageLoop rest cap pool'

/-- The generator loop of `_generate_candidate_pool`: unknown names and
failed generators are skipped (their `continue` also skips the final-pool
check), and the loop stops early once the pool reaches `final_pool`. -/
def poolLoop (final_pool : Nat) (user_id : Int) :
    List RegGenerator → List Int → List Int
  | [], pool => pool
  | g :: rest, pool =>
    match g.algo with
    | none => poolLoop final_pool user_id rest pool
    | some a =>
      match g.gen user_id pool (algorithm_limit a) with
      | none => poolLoop final_pool user_id rest pool
      | some items =>
        let pool' := stageLoop items (pool_limit a) pool
        if final_pool ≤ pool'.length then pool'
        else poolLoop final_pool user_id rest pool'

/-- Embeds `RecommendationService._generate_candidate_pool`, parameterized by the
registered generator list and the configured final pool size. -/
def generate_candidate_pool (generators : List RegGenerator) (final_pool : Nat)
    (user_id : Int) : List Int :=
  poolLoop final_pool user_id generators []

/-- The generator registration performed by `RecommendationService.load_models`,
in its registration order: CF, ALS, TwoTower, Popularity. -/
def serviceGenerators (cf : ItemToItemCF) (als : ALSRecommender)
    (tt : TwoTowerRecommender) (pop : PopularityRecommender) : List RegGenerator :=
  [ ⟨some .cf, fun uid seen k => some (cf.generate_candidates uid seen k)⟩,
    ⟨some .als, fun uid seen k => some (als.generate_candidates uid seen k)⟩,
    ⟨some .tt, fun uid seen k => some (tt.generate_candidates uid seen k)⟩,
    ⟨some .pop, fun uid seen k => some (pop.generate_candidates uid seen k)⟩ ]

/-! ## Properties of the cold-start selection loop -/

/-- The number of distinct elements of `items` that are not already in
`recs`: the items actually available to the selection loop. -/
def countNew : List Int → List Int → Nat
  | [], _ => 0
  | x :: rest, recs =>
    if x ∈ recs then countNew rest recs else countNew rest (recs ++ [x]) + 1

theorem countNew_eq_card (items : List Int) :
    ∀ recs : List Int, countNew items recs = (items.toFinset \ recs.toFinset).card := by
  induction items with
  | nil => intro recs; simp [countNew]
  | cons x rest ih =>
    intro recs
    simp only [countNew, List.toFinset_cons]
    by_cases hm : x ∈ recs
    · rw [if_pos hm, ih, Finset.insert_sdiff_of_mem _ (List.mem_toFinset.2 hm)]
    · rw [if_neg hm, ih]
      have hxt : (recs ++ [x]).toFinset = insert x recs.toFinset := by
        ext y; simp [or_comm]
      rw [hxt]
      have hsplit : insert x rest.toFinset \ recs.toFinset =
          insert x (rest.toFinset \ insert x recs.toFinset) := by
        ext y
        simp only [Finset.mem_sdiff, Finset.mem_insert]
        constructor
        · rintro ⟨hy | hy, hyr⟩
          · exact Or.inl hy
          · by_cases hyx : y = x
            · exact Or.inl hyx
            · exact Or.inr ⟨hy, fun h => h.elim hyx hyr⟩
        · rintro (hy | ⟨hy, hyn⟩)
          · subst hy
            exact ⟨Or.inl rfl, fun h => hm (List.mem_toFinset.1 h)⟩
          · exact ⟨Or.inr hy, fun h => hyn (Or.inr h)⟩
      rw [hsplit, Finset.card_insert_of_not_mem (by simp)]

theorem extendLoop_fst_nodup (items : List Int) (n : Int) :
    ∀ (added : Nat) (recs : List Int), recs.Nodup →
      ((extendLoop items n added recs).1).Nodup := by
  induction items with
  | nil => intro added recs h; simpa [extendLoop] using h
  | cons item rest ih =>
    intro added recs h
    simp only [extendLoop]
    by_cases hm : item ∈ recs
    · simpa [hm] using ih added recs h
    · have h' : (recs ++ [item]).Nodup := by
        simp [List.nodup_append, h, hm]
      simp only [hm, if_false]
      split
      · exact h'
      · exact ih _ _ h'

theorem extendLoop_fst_mem (items : List Int) (n : Int) :
    ∀ (added : Nat) (recs : List Int) (x : Int),
      x ∈ (extendLoop items n added recs).1 → x ∈ recs ∨ x ∈ items := by
  induction items with
  | nil => intro added recs x hx; simp only [extendLoop] at hx; exact Or.inl hx
  | cons item rest ih =>
    intro added recs x hx
    simp only [extendLoop] at hx
    by_cases hm : item ∈ recs
    · rw [if_pos hm] at hx
      rcases ih added recs x hx with h | h
      · exact Or.inl h
      · exact Or.inr (List.mem_cons_of_mem _ h)
    · rw [if_neg hm] at hx
      have hcase : x ∈ recs ++ [item] ∨ x ∈ rest := by
        split at hx
        · exact Or.inl hx
        · rcases ih _ _ x hx with h | h
          · exact Or.inl h
          · exact Or.inr h
      rcases hcase with h | h
      · rcases List.mem_append.1 h with h | h
        · exact Or.inl h
        · simp at h; subst h; exact Or.inr (List.mem_cons_self _ _)
      · exact Or.inr (List.mem_cons_of_mem _ h)

theorem extendLoop_fst_length (items : List Int) (n : Int) :
    ∀ (added : Nat) (recs : List Int), (added : Int) < n →
      (recs.length : Int) + (n - added) ≤ 100 →
      (((extendLoop items n added recs).1).length : Int) =
        min ((recs.length : Int) + (n - added)) (recs.length + countNew items recs) := by
  induction items with
  | nil =>
    intro added recs h1 h2
    simp only [extendLoop, countNew]
    omega
  | cons item rest ih =>
    intro added recs h1 h2
    simp only [extendLoop, countNew]
    by_cases hm : item ∈ recs
    · rw [if_pos hm, if_pos hm]
      exact ih added recs h1 h2
    · rw [if_neg hm, if_neg hm]
      by_cases hstop : ((added + 1 : Nat) : Int) = n ∨ 100 ≤ (recs ++ [item]).length
      · have hn : ((added : Int) + 1) = n := by
          rcases hstop with h | h
          · exact_mod_cast h
          · simp only [List.length_append, List.length_cons, List.length_nil] at h
            omega
        rw [if_pos hstop]
        simp only [List.length_append, List.length_cons, List.length_nil]
        push_cast
        omega
      · rw [if_neg hstop]
        push_neg at hstop
        have h1' : ((added + 1 : Nat) : Int) < n := by
          have := hstop.1
          push_cast at this ⊢
          omega
        have h2' : (((recs ++ [item]).length : Int)) + (n - (added + 1 : Nat)) ≤ 100 := by
          simp only [List.length_append, List.length_cons, List.length_nil]
          push_cast at h2 ⊢
          omega
        rw [ih (added + 1) (recs ++ [item]) h1' h2']
        simp only [List.length_append, List.length_cons, List.length_nil]
        push_cast
        omega

theorem extendLoop_fst_eq_take (items : List Int) (n : Int) :
    ∀ (added : Nat) (recs : List Int), items.Nodup → (∀ x ∈ items, x ∉ recs) →
      (added : Int) < n → (recs.length : Int) + (n - added) ≤ 100 →
      (extendLoop items n added recs).1 = recs ++ items.take (n - added).toNat := by
  induction items with
  | nil => intro added recs _ _ _ _; simp [extendLoop]
  | cons item rest ih =>
    intro added recs hnd hdisj h1 h2
    have hm : item ∉ recs := hdisj item (List.mem_cons_self _ _)
    simp only [extendLoop, if_neg hm]
    by_cases hstop : ((added + 1 : Nat) : Int) = n ∨ 100 ≤ (recs ++ [item]).length
    · have hn : ((added : Int) + 1) = n := by
        rcases hstop with h | h
        · exact_mod_cast h
        · simp only [List.length_append, List.length_cons, List.length_nil] at h
          omega
      rw [if_pos hstop]
      have ht : (n - (added : Int)).toNat = 1 := by omega
      rw [ht]
      simp
    · rw [if_neg hstop]
      push_neg at hstop
      have h1' : ((added + 1 : Nat) : Int) < n := by
        have := hstop.1
        push_cast at this ⊢
        omega
      have h2' : (((recs ++ [item]).length : Int)) + (n - (added + 1 : Nat)) ≤ 100 := by
        simp only [List.length_append, List.length_cons, List.length_nil]
        push_cast at h2 ⊢
        omega
      have hdisj' : ∀ x ∈ rest, x ∉ recs ++ [item] := by
        intro x hx
        simp only [List.mem_append, List.mem_singleton]
        rintro (h | h)
        · exact hdisj x (List.mem_cons_of_mem _ hx) h
        · subst h
          exact (List.nodup_cons.1 hnd).1 hx
      rw [ih (added + 1) (recs ++ [item]) (List.nodup_cons.1 hnd).2 hdisj' h1' h2']
      have ht : (n - (added : Int)).toNat = (n - ((added : Int) + 1)).toNat + 1 := by omega
      push_cast at ht
      rw [ht, List.take_succ_cons, List.append_assoc, List.singleton_append]
      norm_cast

theorem extend_from_table_fst_nodup (items : Option (List Int)) (n : Int)
    (recs : List Int) (h : recs.Nodup) : ((extend_from_table items n recs).1).Nodup := by
  cases items with
  | none => simpa [extend_from_table] using h
  | some its =>
    simp only [extend_from_table]
    split
    · exact h
    · exact extendLoop_fst_nodup its n 0 recs h

theorem extend_from_table_fst_mem (items : Option (List Int)) (n : Int)
    (recs : List Int) (x : Int) (hx : x ∈ (extend_from_table items n recs).1) :
    x ∈ recs ∨ x ∈ items.getD [] := by
  cases items with
  | none => simp only [extend_from_table] at hx; exact Or.inl hx
  | some its =>
    simp only [extend_from_table] at hx
    split at hx
    · exact Or.inl hx
    · exact extendLoop_fst_mem its n 0 recs x hx

theorem extend_from_context_fst_nodup {κ : Type} (table : Option (κ → Option (List Int)))
    (key : κ) (n : Int) (recs : List Int) (h : recs.Nodup) :
    ((extend_from_context table key n recs).1).Nodup := by
  cases table with
  | none => simpa [extend_from_context] using h
  | some t => exact extend_from_table_fst_nodup (t key) n recs h

theorem extend_from_context_fst_mem {κ : Type} (table : Option (κ → Option (List Int)))
    (key : κ) (n : Int) (recs : List Int) (x : Int)
    (hx : x ∈ (extend_from_context table key n recs).1) :
    x ∈ recs ∨ x ∈ (table.bind fun t => t key).getD [] := by
  cases table with
  | none => simp only [extend_from_context] at hx; exact Or.inl hx
  | some t => exact extend_from_table_fst_mem (t key) n recs x hx

/-- The four segment lists `get_recommendations` consults for a given
context, in consultation order, a missing table or key contributing the
empty list.  Their distinct items, together with the global list, are the
items reachable for that context. -/
def consulted_lists (cp : ContextualPopularity) (context : Context) : List Int :=
  (cp.by_os.bind fun t => t (context.os.getD (-1))).getD [] ++
    (cp.by_dev.bind fun t => t (context.device.getD (-1))).getD [] ++
    (cp.by_os_reg.bind fun t =>
      t (context.os.getD (-1), (context.country.getD "").toUpper)).getD [] ++
    (cp.by_dev_reg.bind fun t =>
      t (context.device.getD (-1), (context.country.getD "").toUpper)).getD []

theorem pyslice_nonneg {α : Type} (k : Int) (hk : 0 ≤ k) (l : List α) :
    pyslice k l = l.take k.toNat := by
  simp [pyslice, hk]

theorem cold_fill_slice (r4 g : List Int) (k : Int)
    (h4n : r4.Nodup) (h4m : ∀ x ∈ r4, x ∈ g) (hk1 : 1 ≤ k) (hk2 : k ≤ 100) :
    (pyslice k (if (r4.length : Int) < k then
        (extend_from_table (some g) (k - (r4.length : Int)) r4).1 else r4)).Nodup ∧
      ((pyslice k (if (r4.length : Int) < k then
        (extend_from_table (some g) (k - (r4.length : Int)) r4).1 else r4)).length : Int) =
        min k (g.toFinset.card : Int) := by
  have hR4 : r4.toFinset ⊆ g.toFinset := fun y hy =>
    List.mem_toFinset.2 (h4m y (List.mem_toFinset.1 hy))
  have hlen4 : r4.length ≤ g.toFinset.card := by
    calc r4.length = r4.toFinset.card := (List.toFinset_card_of_nodup h4n).symm
    _ ≤ g.toFinset.card := Finset.card_le_card hR4
  by_cases hcase : (r4.length : Int) < k
  · rw [if_pos hcase]
    have hn0 : ¬ (k - (r4.length : Int) ≤ 0) := by omega
    have hfill : (extend_from_table (some g) (k - (r4.length : Int)) r4).1
        = (extendLoop g (k - (r4.length : Int)) 0 r4).1 := by
      simp [extend_from_table, hn0]
    have hlen : (((extendLoop g (k - (r4.length : Int)) 0 r4).1).length : Int)
        = min ((r4.length : Int) + ((k - (r4.length : Int)) - (0 : Nat)))
            ((r4.length : Int) + countNew g r4) :=
      extendLoop_fst_length g _ 0 r4 (by push_cast; omega) (by push_cast; omega)
    have hcnt : countNew g r4 = g.toFinset.card - r4.length := by
      rw [countNew_eq_card, Finset.card_sdiff hR4, List.toFinset_card_of_nodup h4n]
    have hn5 : ((extendLoop g (k - (r4.length : Int)) 0 r4).1).Nodup :=
      extendLoop_fst_nodup g _ 0 r4 h4n
    rw [hfill, pyslice_nonneg k (by omega)]
    constructor
    · exact hn5.sublist (List.take_sublist _ _)
    · rw [List.length_take]
      push_cast
      push_cast at hlen
      omega
  · rw [if_neg hcase, pyslice_nonneg k (by omega)]
    constructor
    · exact h4n.sublist (List.take_sublist _ _)
    · rw [List.length_take]
      push_cast
      omega

/-- C2 (amended): for a loaded cold-start handler whose global list is
present, a request size 1 <= k <= 100, and a context whose consulted segment
items all also appear in the global popularity list, `get_recommendations`
returns a duplicate-free list of exactly min(k, available) item IDs, where
available counts the distinct items reachable from the four context segment
lists plus the global popularity list. -/
theorem c2_cold_start_min_available (cp : ContextualPopularity) (context : Context)
    (k : Int) (g : List Int)
    (hl : cp.loaded = true) (hg : cp.global_fallback = some g)
    (hk1 : 1 ≤ k) (hk2 : k ≤ 100)
    (hsub : ∀ x ∈ consulted_lists cp context, x ∈ g) :
    ∃ r, cp.get_recommendations context k = some r ∧ r.Nodup ∧
      (r.length : Int) = min k ((consulted_lists cp context ++ g).toFinset.card : Int) := by
  have hcardeq : (consulted_lists cp context ++ g).toFinset = g.toFinset := by
    ext y
    simp only [List.toFinset_append, Finset.mem_union, List.mem_toFinset]
    exact ⟨fun h => h.elim (fun h => hsub y h) id, Or.inr⟩
  rw [hcardeq]
  have hs1 : ∀ x ∈ (cp.by_os.bind fun t => t (context.os.getD (-1))).getD [], x ∈ g := by
    intro x hx
    apply hsub
    simp only [consulted_lists, List.mem_append]
    exact Or.inl (Or.inl (Or.inl hx))
  have hs2 : ∀ x ∈ (cp.by_dev.bind fun t => t (context.device.getD (-1))).getD [], x ∈ g := by
    intro x hx
    apply hsub
    simp only [consulted_lists, List.mem_append]
    exact Or.inl (Or.inl (Or.inr hx))
  have hs3 : ∀ x ∈ (cp.by_os_reg.bind fun t =>
      t (context.os.getD (-1), (context.country.getD "").toUpper)).getD [], x ∈ g := by
    intro x hx
    apply hsub
    simp only [consulted_lists, List.mem_append]
    exact Or.inl (Or.inr hx)
  have hs4 : ∀ x ∈ (cp.by_dev_reg.bind fun t =>
      t (context.device.getD (-1), (context.country.getD "").toUpper)).getD [], x ∈ g := by
    intro x hx
    apply hsub
    simp only [consulted_lists, List.mem_append]
    exact Or.inr hx
  have h1n : ((extend_from_context cp.by_os (context.os.getD (-1))
      (calculate_allocation k).os_global []).1).Nodup :=
    extend_from_context_fst_nodup _ _ _ _ List.nodup_nil
  have h1m : ∀ x ∈ (extend_from_context cp.by_os (context.os.getD (-1))
      (calculate_allocation k).os_global []).1, x ∈ g := by
    intro x hx
    rcases extend_from_context_fst_mem _ _ _ _ x hx with h | h
    · exact absurd h (List.not_mem_nil x)
    · exact hs1 x h
  have h2n : ((extend_from_context cp.by_dev (context.device.getD (-1))
      (calculate_allocation k).device_global
      (extend_from_context cp.by_os (context.os.getD (-1))
        (calculate_allocation k).os_global []).1).1).Nodup :=
    extend_from_context_fst_nodup _ _ _ _ h1n
  have h2m : ∀ x ∈ (extend_from_context cp.by_dev (context.device.getD (-1))
      (calculate_allocation k).device_global
      (extend_from_context cp.by_os (context.os.getD (-1))
        (calculate_allocation k).os_global []).1).1, x ∈ g := by
    intro x hx
    rcases extend_from_context_fst_mem _ _ _ _ x hx with h | h
    · exact h1m x h
    · exact hs2 x h
  simp only [ContextualPopularity.get_recommendations, hl, if_true, hg]
  rcases hor : cp.by_os_reg with _ | t3 <;> rcases hdr : cp.by_dev_reg with _ | t4 <;>
    simp only [hor, hdr] at hs3 hs4 ⊢
  · exact ⟨_, rfl, cold_fill_slice _ g k h2n h2m hk1 hk2⟩
  · have h4n := extend_from_table_fst_nodup (t4 (context.device.getD (-1),
      (context.country.getD "").toUpper)) (calculate_allocation k).device_regional _ h2n
    have h4m : ∀ x ∈ (extend_from_table (t4 (context.device.getD (-1),
        (context.country.getD "").toUpper)) (calculate_allocation k).device_regional
        (extend_from_context cp.by_dev (context.device.getD (-1))
          (calculate_allocation k).device_global
          (extend_from_context cp.by_os (context.os.getD (-1))
            (calculate_allocation k).os_global []).1).1).1, x ∈ g := by
      intro x hx
      rcases extend_from_table_fst_mem _ _ _ x hx with h | h
      · exact h2m x h
      · exact hs4 x (by simpa using h)
    exact ⟨_, rfl, cold_fill_slice _ g k h4n h4m hk1 hk2⟩
  · have h3n := extend_from_table_fst_nodup (t3 (context.os.getD (-1),
      (context.country.getD "").toUpper)) (calculate_allocation k).os_regional _ h2n
    have h3m : ∀ x ∈ (extend_from_table (t3 (context.os.getD (-1),
        (context.country.getD "").toUpper)) (calculate_allocation k).os_regional
        (extend_from_context cp.by_dev (context.device.getD (-1))
          (calculate_allocation k).device_global
          (extend_from_context cp.by_os (context.os.getD (-1))
            (calculate_allocation k).os_global []).1).1).1, x ∈ g := by
      intro x hx
      rcases extend_from_table_fst_mem _ _ _ x hx with h | h
      · exact h2m x h
      · exact hs3 x (by simpa using h)
    exact ⟨_, rfl, cold_fill_slice _ g k h3n h3m hk1 hk2⟩
  · have h3n := extend_from_table_fst_nodup (t3 (context.os.getD (-1),
      (context.country.getD "").toUpper)) (calculate_allocation k).os_regional _ h2n
    have h3m : ∀ x ∈ (extend_from_table (t3 (context.os.getD (-1),
        (context.country.getD "").toUpper)) (calculate_allocation k).os_regional
        (extend_from_context cp.by_dev (context.device.getD (-1))
          (calculate_allocation k).device_global
          (extend_from_context cp.by_os (context.os.getD (-1))
            (calculate_allocation k).os_global []).1).1).1, x ∈ g := by
      intro x hx
      rcases extend_from_table_fst_mem _ _ _ x hx with h | h
      · exact h2m x h
      · exact hs3 x (by simpa using h)
    have h4n := extend_from_table_fst_nodup (t4 (context.device.getD (-1),
      (context.country.getD "").toUpper)) (calculate_allocation k).device_regional _ h3n
    have h4m : ∀ x ∈ (extend_from_table (t4 (context.device.getD (-1),
        (context.country.getD "").toUpper)) (calculate_allocation k).device_regional
        (extend_from_table (t3 (context.os.getD (-1),
          (context.country.getD "").toUpper)) (calculate_allocation k).os_regional
          (extend_from_context cp.by_dev (context.device.getD (-1))
            (calculate_allocation k).device_global
            (extend_from_context cp.by_os (context.os.getD (-1))
              (calculate_allocation k).os_global []).1).1).1).1, x ∈ g := by
      intro x hx
      rcases extend_from_table_fst_mem _ _ _ x hx with h | h
      · exact h3m x h
      · exact hs4 x (by simpa using h)
    exact ⟨_, rfl, cold_fill_slice _ g k h4n h4m hk1 hk2⟩

theorem c2_cold_start_min_available_witness :
    ((⟨true, none, none, none, none, some [1, 2, 3]⟩ : ContextualPopularity).loaded = true ∧
        (1 : Int) ≤ 2 ∧ (2 : Int) ≤ 100 ∧
        (∀ x ∈ consulted_lists ⟨true, none, none, none, none, some [1, 2, 3]⟩
            ⟨none, none, none⟩, x ∈ [1, 2, 3])) ∧
      ∃ r, ContextualPopularity.get_recommendations
          ⟨true, none, none, none, none, some [1, 2, 3]⟩ ⟨none, none, none⟩ 2 = some r ∧
        r.Nodup ∧
        (r.length : Int) = min 2 ((consulted_lists ⟨true, none, none, none, none, some [1, 2, 3]⟩
          ⟨none, none, none⟩ ++ [1, 2, 3]).toFinset.card : Int) :=
  ⟨⟨rfl, by decide, by decide, by decide⟩,
    c2_cold_start_min_available _ _ 2 [1, 2, 3] rfl rfl (by decide) (by decide) (by decide)⟩

/-- C2 refuted as stated: with a context matching an OS segment of five
items, no other segments, and an empty global list, a request of size 10
returns only the 2-item OS quota, not min(10, 5) = 5 items: segment items
beyond a quota are never backfilled. -/
theorem c2_counterexample :
    ContextualPopularity.get_recommendations
        ⟨true, some (fun o => if o = 1 then some [10, 20, 30, 40, 50] else none),
          none, none, none, some []⟩ ⟨none, some 1, none⟩ 10 = some [10, 20] ∧
      ((([10, 20] : List Int).length : Int) ≠
        min 10 ((consulted_lists
          ⟨true, some (fun o => if o = 1 then some [10, 20, 30, 40, 50] else none),
            none, none, none, some []⟩ ⟨none, some 1, none⟩ ++ ([] : List Int)).toFinset.card : Int)) := by
  constructor
  · rfl
  · decide

theorem extend_from_context_of_lookup_none {κ : Type}
    (table : Option (κ → Option (List Int))) (key : κ) (n : Int) (recs : List Int)
    (h : (table.bind fun t => t key) = none) :
    extend_from_context table key n recs = (recs, 0) := by
  cases table with
  | none => rfl
  | some t =>
    simp only [Option.some_bind] at h
    simp [extend_from_context, extend_from_table, h]

/-- C7 (amended): for a loaded handler, a context whose four segment lookups
all miss, a present duplicate-free global list, and a request size
1 <= k <= 100, `get_recommendations` returns exactly the first min(k, length)
items of the global popularity list, in order. -/
theorem c7_unknown_context_returns_global (cp : ContextualPopularity)
    (context : Context) (k : Int) (g : List Int)
    (hl : cp.loaded = true) (hg : cp.global_fallback = some g)
    (h1 : (cp.by_os.bind fun t => t (context.os.getD (-1))) = none)
    (h2 : (cp.by_dev.bind fun t => t (context.device.getD (-1))) = none)
    (h3 : (cp.by_os_reg.bind fun t =>
      t (context.os.getD (-1), (context.country.getD "").toUpper)) = none)
    (h4 : (cp.by_dev_reg.bind fun t =>
      t (context.device.getD (-1), (context.country.getD "").toUpper)) = none)
    (hk1 : 1 ≤ k) (hk2 : k ≤ 100) (hnd : g.Nodup) :
    cp.get_recommendations context k = some (g.take k.toNat) := by
  simp only [ContextualPopularity.get_recommendations, hl, if_true, hg,
    extend_from_context_of_lookup_none cp.by_os _ _ _ h1,
    extend_from_context_of_lookup_none cp.by_dev _ _ _ h2]
  have hfill2 : (if (([] : List Int).length : Int) < k then
      (if k - (([] : List Int).length : Int) ≤ 0 then (([] : List Int), 0)
        else extendLoop g (k - (([] : List Int).length : Int)) 0 []).1
      else []) = g.take k.toNat := by
    rw [if_pos (by simp; omega), if_neg (by simp; omega)]
    rw [extendLoop_fst_eq_take g _ 0 [] hnd (by simp) (by simp; omega) (by simp; omega)]
    simp
  rcases hor : cp.by_os_reg with _ | t3 <;> rcases hdr : cp.by_dev_reg with _ | t4 <;>
    simp only [hor, hdr, Option.some_bind] at h3 h4 ⊢ <;>
    simp only [h3, h4, extend_from_table] <;>
    rw [hfill2, pyslice_nonneg k (by omega)] <;>
    rw [List.take_take, min_self]

theorem c7_unknown_context_returns_global_witness :
    ((⟨true, none, none, none, none, some [1, 2, 3]⟩ : ContextualPopularity).loaded = true ∧
        (1 : Int) ≤ 2 ∧ (2 : Int) ≤ 100 ∧ ([1, 2, 3] : List Int).Nodup) ∧
      ContextualPopularity.get_recommendations
          ⟨true, none, none, none, none, some [1, 2, 3]⟩
          ⟨some 9999, some 9999, some "ZZ"⟩ 2 = some (([1, 2, 3] : List Int).take (2 : Int).toNat) :=
  ⟨⟨rfl, by decide, by decide, by decide⟩,
    c7_unknown_context_returns_global _ _ 2 [1, 2, 3] rfl rfl rfl rfl rfl rfl
      (by decide) (by decide) (by decide)⟩

set_option maxRecDepth 100000 in
/-- C7 refuted as stated: with unknown context keys (device 9999, os 9999,
country ZZ) and a populated 101-item global list, a request of size 101
returns only the first 100 global items (the selection loop's hard limit of
100), not the first 101. -/
theorem c7_counterexample :
    ContextualPopularity.get_recommendations
        ⟨true, none, none, none, none, some ((List.range 101).map fun n => (n : Int))⟩
        ⟨some 9999, some 9999, some "ZZ"⟩ 101 =
      some (((List.range 101).map fun n => (n : Int)).take 100) ∧
      ContextualPopularity.get_recommendations
          ⟨true, none, none, none, none, some ((List.range 101).map fun n => (n : Int))⟩
          ⟨some 9999, some 9999, some "ZZ"⟩ 101 ≠
        some (((List.range 101).map fun n => (n : Int)).take (101 : Int).toNat) := by
  constructor
  · rfl
  · decide

/-! ## Properties of the candidate pool builder -/

theorem stageLoop_nodup (items : List Int) (cap : Nat) :
    ∀ pool : List Int, pool.Nodup → (stageLoop items cap pool).Nodup := by
  induction items with
  | nil => intro pool h; simpa [stageLoop] using h
  | cons item rest ih =>
    intro pool h
    simp only [stageLoop]
    by_cases hm : item ∈ pool
    · simp only [hm, if_true]
      split
      · exact h
      · exact ih pool h
    · simp only [hm, if_false]
      have h' : (pool ++ [item]).Nodup := by simp [List.nodup_append, h, hm]
      split
      · exact h'
      · exact ih _ h'

theorem stageLoop_length_le (items : List Int) (cap : Nat) :
    ∀ pool : List Int, (stageLoop items cap pool).length ≤ max cap (pool.length + 1) := by
  induction items with
  | nil => intro pool; simp only [stageLoop]; omega
  | cons item rest ih =>
    intro pool
    simp only [stageLoop]
    by_cases hm : item ∈ pool
    · simp only [hm, if_true]
      split
      · omega
      · have := ih pool
        omega
    · simp only [hm, if_false]
      split
      · simp only [List.length_append, List.length_cons, List.length_nil]
        omega
      · have := ih (pool ++ [item])
        simp only [List.length_append, List.length_cons, List.length_nil] at *
        omega

theorem poolLoop_nodup (final_pool : Nat) (user_id : Int) :
    ∀ (gens : List RegGenerator) (pool : List Int), pool.Nodup →
      (poolLoop final_pool user_id gens pool).Nodup := by
  intro gens
  induction gens with
  | nil => intro pool h; simpa [poolLoop] using h
  | cons g rest ih =>
    intro pool h
    simp only [poolLoop]
    rcases halgo : g.algo with _ | a
    · simp only [halgo]
      exact ih pool h
    · simp only [halgo]
      rcases hgen : g.gen user_id pool (algorithm_limit a) with _ | items
      · simp only [hgen]
        exact ih pool h
      · simp only [hgen]
        have h' := stageLoop_nodup items (pool_limit a) pool h
        split
        · exact h'
        · exact ih _ h'

/-- C3: for every user and every sequence of registered generators and
generator outputs, the candidate pool built for a single request never
contains a duplicate item ID. -/
theorem c3_pool_no_duplicates (generators : List RegGenerator) (final_pool : Nat)
    (user_id : Int) : (generate_candidate_pool generators final_pool user_id).Nodup :=
  poolLoop_nodup final_pool user_id generators [] List.nodup_nil

/-- C10: with the four generators registered at load time and the configured
final pool size of 1000, the candidate pool has length at most 801 (each
cumulative cap is checked only after appending, so a stage entered at or
above its cap appends at most one item), and in particular never reaches
1000. -/
theorem c10_pool_length_le_801 (cf : ItemToItemCF) (als : ALSRecommender)
    (tt : TwoTowerRecommender) (pop : PopularityRecommender) (user_id : Int) :
    (generate_candidate_pool (serviceGenerators cf als tt pop) 1000 user_id).length ≤ 801 ∧
      (generate_candidate_pool (serviceGenerators cf als tt pop) 1000 user_id).length < 1000 := by
  have key : (generate_candidate_pool (serviceGenerators cf als tt pop) 1000 user_id).length ≤ 801 := by
    simp only [generate_candidate_pool, serviceGenerators, poolLoop, algorithm_limit, pool_limit]
    set p1 := stageLoop (cf.generate_candidates user_id [] 300) 300 [] with hp1
    have hb1 : p1.length ≤ 300 := by
      have h := stageLoop_length_le (cf.generate_candidates user_id [] 300) 300 []
      rw [← hp1] at h
      simp only [List.length_nil] at h
      omega
    set p2 := stageLoop (als.generate_candidates user_id p1 100) 400 p1 with hp2
    have hb2 : p2.length ≤ 400 := by
      have h := stageLoop_length_le (als.generate_candidates user_id p1 100) 400 p1
      rw [← hp2] at h
      omega
    set p3 := stageLoop (tt.generate_candidates user_id p2 200) 800 p2 with hp3
    have hb3 : p3.length ≤ 800 := by
      have h := stageLoop_length_le (tt.generate_candidates user_id p2 200) 800 p2
      rw [← hp3] at h
      omega
    set p4 := stageLoop (pop.generate_candidates user_id p3 600) 600 p3 with hp4
    have hb4 : p4.length ≤ 801 := by
      have h := stageLoop_length_le (pop.generate_candidates user_id p3 600) 600 p3
      rw [← hp4] at h
      omega
    split_ifs <;> omega
  exact ⟨key, by omega⟩

/-! ## Warm/cold classification (`RecommendationService._is_cold_user`) -/

/-- Embeds `RecommendationService._is_cold_user`: a user is cold when the last-click
table is unloaded, the lookup raises `IndexError`, or the stored value is the
sentinel -1. -/
def is_cold_user (last_clicks : Option (List Int)) (user_id : Int) : Bool :=
  match last_clicks with
  | none => true
  | some t =>
    match pyIndex t user_id with
    | none => true
    | some v => v == -1

/-- C4: with a loaded last-click table, a user ID is classified cold exactly
when the ID is out of range of the table (treated as cold, not an error) or
the stored last click equals the sentinel -1; any other stored value
classifies the user warm.  The classification is a total function of the
single looked-up value. -/
theorem c4_cold_iff_sentinel_or_out_of_range (t : List Int) (user_id : Nat) :
    is_cold_user (some t) (user_id : Int) = true ↔
      (t.length ≤ user_id ∨ t.get? user_id = some (-1)) := by
  have hpy : pyIndex t (user_id : Int) = t.get? user_id := by
    simp [pyIndex]
  simp only [is_cold_user, hpy]
  cases hv : t.get? user_id with
  | none =>
    have hlen : t.length ≤ user_id := List.get?_eq_none.mp hv
    simp [hlen]
  | some v =>
    have hlt : user_id < t.length := by
      by_contra hc
      rw [List.get?_eq_none.mpr (by omega)] at hv
      exact Option.noConfusion hv
    simp only [beq_iff_eq, Option.some.injEq]
    constructor
    · intro h; exact Or.inr h
    · rintro (h | h)
      · omega
      · exact h

/-- Modelled from the spec: the candidate pool as the specification's table
describes it, invoking generators in the order CF, ALS, Popularity, TwoTower,
then Popularity again as a filler pass, with per-call caps 300/100/200/200
(filler until 1000) and cumulative caps 300/400/600/800/1000, each stage
appending only items not already in the pool. -/
def spec_candidate_pool (cf : ItemToItemCF) (als : ALSRecommender)
    (tt : TwoTowerRecommender) (pop : PopularityRecommender) (user_id : Int) : List Int :=
  let p1 := stageLoop (cf.generate_candidates user_id [] 300) 300 []
  let p2 := stageLoop (als.generate_candidates user_id p1 100) 400 p1
  let p3 := stageLoop (pop.generate_candidates user_id p2 200) 600 p2
  let p4 := stageLoop (tt.generate_candidates user_id p3 200) 800 p3
  stageLoop (pop.generate_candidates user_id p4 1000) 1000 p4

/-- C1 refuted as stated: on a service whose CF/ALS/TwoTower/Popularity
tables contribute items 1/2/3/4 respectively for user 0, the pool actually
built is [1, 2, 3, 4] (registration order CF, ALS, TwoTower, Popularity),
while the spec's stage order CF, ALS, Popularity, TwoTower with a Popularity
filler would give [1, 2, 4, 3]. -/
theorem c1_counterexample :
    generate_candidate_pool
        (serviceGenerators ⟨true, [[], [], [], [], [], [1]], [5]⟩ ⟨true, [[2]]⟩
          ⟨true, [[3]]⟩ ⟨true, [4]⟩) 1000 0 = [1, 2, 3, 4] ∧
      spec_candidate_pool ⟨true, [[], [], [], [], [], [1]], [5]⟩ ⟨true, [[2]]⟩
          ⟨true, [[3]]⟩ ⟨true, [4]⟩ 0 = [1, 2, 4, 3] ∧
      ([1, 2, 3, 4] : List Int) ≠ [1, 2, 4, 3] :=
  ⟨rfl, rfl, by decide⟩

/-- C1 (amended): the pool builder invokes the generators in the load-time
registration order CF, ALS, TwoTower, Popularity, under cumulative caps of
300 after CF, 400 after ALS, 800 after TwoTower and 600 after Popularity
(each checked only after appending an item), with per-call caps
300/100/200/600; there is no filler pass, each stage appends only items not
already in the pool, and the configured stop at 1000 never fires. -/
theorem c1_pool_order_amended (cf : ItemToItemCF) (als : ALSRecommender)
    (tt : TwoTowerRecommender) (pop : PopularityRecommender) (user_id : Int) :
    generate_candidate_pool (serviceGenerators cf als tt pop) 1000 user_id =
      (let p1 := stageLoop (cf.generate_candidates user_id [] 300) 300 []
       let p2 := stageLoop (als.generate_candidates user_id p1 100) 400 p1
       let p3 := stageLoop (tt.generate_candidates user_id p2 200) 800 p2
       stageLoop (pop.generate_candidates user_id p3 600) 600 p3) := by
  simp only [generate_candidate_pool, serviceGenerators, poolLoop, algorithm_limit, pool_limit]
  set p1 := stageLoop (cf.generate_candidates user_id [] 300) 300 [] with hp1
  have hb1 : p1.length ≤ 300 := by
    have h := stageLoop_length_le (cf.generate_candidates user_id [] 300) 300 []
    rw [← hp1] at h
    simp only [List.length_nil] at h
    omega
  set p2 := stageLoop (als.generate_candidates user_id p1 100) 400 p1 with hp2
  have hb2 : p2.length ≤ 400 := by
    have h := stageLoop_length_le (als.generate_candidates user_id p1 100) 400 p1
    rw [← hp2] at h
    omega
  set p3 := stageLoop (tt.generate_candidates user_id p2 200) 800 p2 with hp3
  have hb3 : p3.length ≤ 800 := by
    have h := stageLoop_length_le (tt.generate_candidates user_id p2 200) 800 p2
    rw [← hp3] at h
    omega
  split_ifs <;> first | rfl | omega

/-! ## Reranker (`src/models/reranking.py`) -/

/-- One row of the 6-column feature matrix built by
`LightGBMReranker._build_features`: the four per-algorithm rank features,
the global candidate rank, and the user-item cosine similarity.  Feature
values are rationals standing for the float32 entries; the constants used
(1001 and small positive integer ranks) are exactly representable. -/
structure FeatureRow where
  cf_rank : ℚ
  als_rank : ℚ
  pop_rank : ℚ
  tt_rank : ℚ
  global_rank : ℚ
  similarity : ℚ
deriving DecidableEq

/-- State of the loaded LightGBM reranker.  Embedding vectors have abstract
type `E`; `cosine` stands for `_cosine_similarity` on float vectors;
`predict` models `Booster.predict` (`none` is a raised scoring exception,
e.g. a shape mismatch); `argsort` models `np.argsort` applied to the negated
score vector (no verified claim depends on the sort order itself). -/
structure LightGBMReranker (E : Type) where
  loaded : Bool
  user_embeddings : List E
  item_embeddings : List E
  cosine : E → E → ℚ
  predict : List FeatureRow → Option (List ℚ)
  argsort : List ℚ → List Nat

/-- The feature loop of `_build_features`, carrying the running 0-based
enumeration index; a failing item-embedding lookup (`IndexError`) aborts the
whole construction. -/
def buildRows {E : Type} (R : LightGBMReranker E) (ue : E) :
    Nat → List Int → Option (List FeatureRow)
  | _, [] => some []
  | i, item :: rest =>
    match pyIndex R.item_embeddings item with
    | none => none
    | some ie =>
      match buildRows R ue (i + 1) rest with
      | none => none
      | some rows =>
        some ({ cf_rank := 1001, als_rank := 1001, pop_rank := 1001, tt_rank := 1001,
                global_rank := (i : ℚ) + 1, similarity := R.cosine ue ie } :: rows)

/-- Embeds `LightGBMReranker._build_features`: look up the user embedding row, then
build one feature row per candidate; `none` models a raised `IndexError`. -/
def LightGBMReranker.build_features {E : Type} (R : LightGBMReranker E)
    (user_id : Int) (candidates : List Int) : Option (List FeatureRow) :=
  match pyIndex R.user_embeddings user_id with
  | none => none
  | some ue => buildRows R ue 0 candidates

/-- Embeds `LightGBMReranker.rerank`: raise (`none`) when unloaded; return an empty
candidate list unchanged; otherwise score and permute by descending score,
returning the input order unchanged if feature building, scoring, or the
index permutation fails. -/
def LightGBMReranker.rerank {E : Type} (R : LightGBMReranker E) (user_id : Int)
    (candidates : List Int) : Option (List Int) :=
  if R.loaded then
    if candidates = [] then some candidates
    else
      some (match R.build_features user_id candidates with
        | none => candidates
        | some feats =>
          match R.predict feats with
          | none => candidates
          | some scores =>
            let idxs := R.argsort scores
            if idxs.all fun i => decide (i < candidates.length) then
              idxs.map fun i => candidates.getD i 0
            else candidates)
  else none

/-- C5: for every loaded reranker, every user, and every non-empty candidate
list, if feature building or scoring raises, rerank returns the candidate
list in exactly the input order instead of propagating the exception. -/
theorem c5_rerank_failure_returns_input_order {E : Type} (R : LightGBMReranker E)
    (user_id : Int) (candidates : List Int)
    (hl : R.loaded = true) (hne : candidates ≠ [])
    (hfail : R.build_features user_id candidates = none ∨
      ∃ feats, R.build_features user_id candidates = some feats ∧ R.predict feats = none) :
    R.rerank user_id candidates = some candidates := by
  simp only [LightGBMReranker.rerank, hl, if_true, hne, if_false]
  rcases hfail with h | ⟨feats, hb, hp⟩
  · rw [h]
  · simp only [hb, hp]

theorem c5_rerank_failure_witness :
    ((⟨true, [()], [()], fun _ _ => 0, fun _ => none, fun _ => []⟩ :
        LightGBMReranker Unit).loaded = true ∧ ([7] : List Int) ≠ [] ∧
      ((⟨true, [()], [()], fun _ _ => 0, fun _ => none, fun _ => []⟩ :
        LightGBMReranker Unit).build_features 0 [7] = none ∨
       ∃ feats, (⟨true, [()], [()], fun _ _ => 0, fun _ => none, fun _ => []⟩ :
          LightGBMReranker Unit).build_features 0 [7] = some feats ∧
        (⟨true, [()], [()], fun _ _ => 0, fun _ => none, fun _ => []⟩ :
          LightGBMReranker Unit).predict feats = none)) ∧
      (⟨true, [()], [()], fun _ _ => 0, fun _ => none, fun _ => []⟩ :
        LightGBMReranker Unit).rerank 0 [7] = some [7] :=
  ⟨⟨rfl, by decide, Or.inl rfl⟩,
    c5_rerank_failure_returns_input_order _ 0 [7] rfl (by decide) (Or.inl rfl)⟩

theorem buildRows_spec {E : Type} (R : LightGBMReranker E) (ue : E) :
    ∀ (candidates : List Int) (i : Nat) (rows : List FeatureRow),
      buildRows R ue i candidates = some rows →
      rows.length = candidates.length ∧
      ∀ j (hj : j < rows.length),
        (rows.get ⟨j, hj⟩).cf_rank = 1001 ∧ (rows.get ⟨j, hj⟩).als_rank = 1001 ∧
        (rows.get ⟨j, hj⟩).pop_rank = 1001 ∧ (rows.get ⟨j, hj⟩).tt_rank = 1001 ∧
        (rows.get ⟨j, hj⟩).global_rank = (i : ℚ) + (j : ℚ) + 1 ∧
        ∃ item ie, candidates.get? j = some item ∧
          pyIndex R.item_embeddings item = some ie ∧
          (rows.get ⟨j, hj⟩).similarity = R.cosine ue ie := by
  intro candidates
  induction candidates with
  | nil =>
    intro i rows h
    simp only [buildRows, Option.some.injEq] at h
    subst h
    exact ⟨rfl, fun j hj => absurd hj (by simp)⟩
  | cons item rest ih =>
    intro i rows h
    simp only [buildRows] at h
    cases hie : pyIndex R.item_embeddings item with
    | none => rw [hie] at h; exact Option.noConfusion h
    | some ie =>
      rw [hie] at h
      cases hrec : buildRows R ue (i + 1) rest with
      | none => rw [hrec] at h; exact Option.noConfusion h
      | some rows' =>
        rw [hrec] at h
        simp only [Option.some.injEq] at h
        subst h
        obtain ⟨hlen, hall⟩ := ih (i + 1) rows' hrec
        refine ⟨by simp [hlen], ?_⟩
        intro j hj
        cases j with
        | zero =>
          refine ⟨rfl, rfl, rfl, rfl, ?_, item, ie, rfl, hie, rfl⟩
          show (i : ℚ) + 1 = (i : ℚ) + ((0 : Nat) : ℚ) + 1
          push_cast
          ring
        | succ j' =>
          have hj' : j' < rows'.length := by
            simp only [List.length_cons] at hj
            omega
          obtain ⟨h1, h2, h3, h4, h5, witem, wie, hw1, hw2, hw3⟩ := hall j' hj'
          refine ⟨h1, h2, h3, h4, ?_, witem, wie, hw1, hw2, hw3⟩
          simp only [List.get_cons_succ]
          rw [h5]
          push_cast
          ring

/-- C8: the feature matrix the warm path actually scores (built by
`_build_features`, the function `rerank` invokes) sets, for every candidate,
the four per-algorithm rank features to the constant sentinel 1001 and the
global-rank feature to the candidate's 1-based position in the pool; only
the global pool rank and the user-item cosine similarity vary. -/
theorem c8_build_features_sentinels {E : Type} (R : LightGBMReranker E)
    (user_id : Int) (candidates : List Int) (rows : List FeatureRow)
    (hb : R.build_features user_id candidates = some rows) :
    rows.length = candidates.length ∧
      ∃ ue, pyIndex R.user_embeddings user_id = some ue ∧
        ∀ j (hj : j < rows.length),
          (rows.get ⟨j, hj⟩).cf_rank = 1001 ∧ (rows.get ⟨j, hj⟩).als_rank = 1001 ∧
          (rows.get ⟨j, hj⟩).pop_rank = 1001 ∧ (rows.get ⟨j, hj⟩).tt_rank = 1001 ∧
          (rows.get ⟨j, hj⟩).global_rank = (j : ℚ) + 1 ∧
          ∃ item ie, candidates.get? j = some item ∧
            pyIndex R.item_embeddings item = some ie ∧
            (rows.get ⟨j, hj⟩).similarity = R.cosine ue ie := by
  simp only [LightGBMReranker.build_features] at hb
  cases hue : pyIndex R.user_embeddings user_id with
  | none => rw [hue] at hb; exact Option.noConfusion hb
  | some ue =>
    rw [hue] at hb
    obtain ⟨hlen, hall⟩ := buildRows_spec R ue candidates 0 rows hb
    refine ⟨hlen, ue, rfl, ?_⟩
    intro j hj
    obtain ⟨h1, h2, h3, h4, h5, rest⟩ := hall j hj
    exact ⟨h1, h2, h3, h4, by rw [h5]; push_cast; ring, rest⟩

theorem c8_build_features_sentinels_witness :
    ((⟨true, [()], [()], fun _ _ => 0, fun _ => none, fun _ => []⟩ :
        LightGBMReranker Unit).build_features 0 [0] =
      some [⟨1001, 1001, 1001, 1001, 1, 0⟩]) ∧
      (([⟨1001, 1001, 1001, 1001, 1, 0⟩] : List FeatureRow).length = ([0] : List Int).length ∧
        ∃ ue, pyIndex (⟨true, [()], [()], fun _ _ => 0, fun _ => none, fun _ => []⟩ :
            LightGBMReranker Unit).user_embeddings 0 = some ue ∧
          ∀ j (hj : j < ([⟨1001, 1001, 1001, 1001, 1, 0⟩] : List FeatureRow).length),
            (([⟨1001, 1001, 1001, 1001, 1, 0⟩] : List FeatureRow).get ⟨j, hj⟩).cf_rank = 1001 ∧
            (([⟨1001, 1001, 1001, 1001, 1, 0⟩] : List FeatureRow).get ⟨j, hj⟩).als_rank = 1001 ∧
            (([⟨1001, 1001, 1001, 1001, 1, 0⟩] : List FeatureRow).get ⟨j, hj⟩).pop_rank = 1001 ∧
            (([⟨1001, 1001, 1001, 1001, 1, 0⟩] : List FeatureRow).get ⟨j, hj⟩).tt_rank = 1001 ∧
            (([⟨1001, 1001, 1001, 1001, 1, 0⟩] : List FeatureRow).get ⟨j, hj⟩).global_rank = (j : ℚ) + 1 ∧
            ∃ item ie, ([0] : List Int).get? j = some item ∧
              pyIndex (⟨true, [()], [()], fun _ _ => 0, fun _ => none, fun _ => []⟩ :
                LightGBMReranker Unit).item_embeddings item = some ie ∧
              (([⟨1001, 1001, 1001, 1001, 1, 0⟩] : List FeatureRow).get ⟨j, hj⟩).similarity =
                (⟨true, [()], [()], fun _ _ => 0, fun _ => none, fun _ => []⟩ :
                  LightGBMReranker Unit).cosine ue ie) := by
  have hb : (⟨true, [()], [()], fun _ _ => 0, fun _ => none, fun _ => []⟩ :
      LightGBMReranker Unit).build_features 0 [0] =
        some [⟨1001, 1001, 1001, 1001, 1, 0⟩] := by
    simp only [LightGBMReranker.build_features, buildRows, pyIndex]
    norm_num
  exact ⟨hb, c8_build_features_sentinels _ 0 [0] _ hb⟩

/-! ## Recommendation service (`src/service.py`) -/

/-- The response dictionary shaped by the service: recommendation list,
warm/cold label, algorithm tag, attached ground-truth lookup, optional
candidate count, and optional error marker. -/
structure Response where
  recommendations : List Int
  user_type : String
  algorithm : String
  ground_truth : Option Int
  candidate_count : Option Nat
  error : Option String

/-- Post-`load_models` state of `RecommendationService`: the registry holds
the four registered models (also the candidate generators, in registration
order), the reranker and the cold-start handler; auxiliary data is the
last-click array and the ground-truth mapping. -/
structure RecommendationService (E : Type) where
  max_recommendations : Int
  final_candidate_pool : Nat
  last_clicks : Option (List Int)
  ground_truth : Int → Option Int
  cf : ItemToItemCF
  als : ALSRecommender
  tt : TwoTowerRecommender
  pop : PopularityRecommender
  reranker : LightGBMReranker E
  cold_start : ContextualPopularity

/-- Embeds `ModelRegistry.is_ready` after `load_models`: generators, reranker and
cold-start handler are registered, so readiness reduces to the four
registered models reporting loaded. -/
def RecommendationService.registry_is_ready {E : Type}
    (S : RecommendationService E) : Bool :=
  S.cf.loaded && S.als.loaded && S.tt.loaded && S.pop.loaded

/-- Embeds `RecommendationService._get_cold_start_recommendations`: ask the
cold-start handler; if it raises, fall back to the registered global
popularity model (whose own raise, inside the except block, propagates). -/
def RecommendationService.get_cold_start_recommendations {E : Type}
    (S : RecommendationService E) (user_id k : Int) (context : Context) :
    Option Response :=
  match S.cold_start.get_recommendations context k with
  | some recs =>
    some { recommendations := recs, user_type := "cold",
           algorithm := "contextual_popularity",
           ground_truth := S.ground_truth user_id,
           candidate_count := none, error := none }
  | none =>
    match S.pop.get_candidates user_id k with
    | some fallback_recs =>
      some { recommendations := pyslice k fallback_recs, user_type := "cold",
             algorithm := "global_popularity_fallback",
             ground_truth := S.ground_truth user_id,
             candidate_count := none, error := none }
    | none => none

/-- Embeds `RecommendationService._get_warm_user_recommendations`: build the pool,
report a no-candidates outcome on an empty pool, otherwise rerank (an
exception raised by the reranker is caught by the warm-path handler, which
returns the error-shaped response) and truncate to `k`. -/
def RecommendationService.get_warm_user_recommendations {E : Type}
    (S : RecommendationService E) (user_id k : Int) : Option Response :=
  let candidates :=
    generate_candidate_pool (serviceGenerators S.cf S.als S.tt S.pop)
      S.final_candidate_pool user_id
  if candidates = [] then
    some { recommendations := [], user_type := "warm", algorithm := "ensemble",
           ground_truth := S.ground_truth user_id, candidate_count := none,
           error := some "No candidates generated" }
  else
    match S.reranker.rerank user_id candidates with
    | some final_recs =>
      some { recommendations := pyslice k final_recs, user_type := "warm",
             algorithm := "ensemble_with_reranking",
             ground_truth := S.ground_truth user_id,
             candidate_count := some candidates.length, error := none }
    | none =>
      some { recommendations := [], user_type := "warm", algorithm := "ensemble",
             ground_truth := S.ground_truth user_id, candidate_count := none,
             error := some "LightGBM reranker not loaded" }

/-- Embeds `RecommendationService.get_recommendations`: raise (`none`) when the
registry is not ready, clamp `k` to `[1, max_recommendations]`, then branch
on the warm/cold classification. -/
def RecommendationService.get_recommendations {E : Type}
    (S : RecommendationService E) (user_id k : Int) (context : Context) :
    Option Response :=
  if S.registry_is_ready then
    let kc := max 1 (min k S.max_recommendations)
    if is_cold_user S.last_clicks user_id then
      S.get_cold_start_recommendations user_id kc context
    else S.get_warm_user_recommendations user_id kc
  else none

/-- C9: the recommendations, user_type and algorithm fields of the service
response are identical across any two runs that differ only in the contents
of the ground-truth table; the ground-truth lookup is attached to the
response but never influences which items are recommended. -/
theorem c9_ground_truth_noninterference {E : Type} (S : RecommendationService E)
    (g1 g2 : Int → Option Int) (user_id k : Int) (context : Context) :
    Option.map (fun r : Response => (r.recommendations, r.user_type, r.algorithm))
        (({ S with ground_truth := g1 }).get_recommendations user_id k context) =
      Option.map (fun r : Response => (r.recommendations, r.user_type, r.algorithm))
        (({ S with ground_truth := g2 }).get_recommendations user_id k context) := by
  simp only [RecommendationService.get_recommendations,
    RecommendationService.get_cold_start_recommendations,
    RecommendationService.get_warm_user_recommendations,
    RecommendationService.registry_is_ready]
  split <;> try rfl
  all_goals split <;> try rfl
  all_goals split <;> try rfl
  all_goals split <;> rfl
